import Mathlib

/-!
# Verification of the visual-regression capture service

Shallow embedding of the capture-and-diff pipeline implemented in
`src/app.js` and `src/unnamed/part_000` … `part_003` (five variants of the
same Express service).  The primary model follows `src/unnamed/part_001`
(the variant with ignore-region masking, cited by most claims); the
diff-response shape of the first `src/app.js` handler is modelled
separately where it differs.

External collaborators are modelled at their interfaces:
* the S3 blob store is a partial map from string keys to stored objects;
* the browser (puppeteer) is an input: the image it produced, or `none`
  when rendering failed;
* PNG encode/decode (`pngjs`) round-trips losslessly, so a stored PNG
  buffer is modelled by the decoded image it denotes;
* `JSON.parse` of the `ignore` query parameter is modelled by its outcome
  (a rectangle list, or a parse failure);
* `crypto.createHash("md5")` is modelled as an abstract string-to-string
  digest parameter `hash`;
* `Date.now()` is modelled as an explicit `ts : Nat` argument;
* the `promise-queue` instance `new Queue(1, Infinity)` is modelled as a
  single worker that runs each queued job to its terminal state before
  starting the next (its documented semantics for concurrency 1).
-/

/-- One RGBA pixel, channels as byte values (the four consecutive entries
of the `pngjs` data buffer at a pixel's base offset). -/
structure Pixel where
  r : Nat
  g : Nat
  b : Nat
  a : Nat
deriving DecidableEq, Repr

/-- The value read back from a typed-array slot that was never written, and
the value stored when a read past the end of the source buffer (which
yields `undefined` in JS) is coerced into a `Uint8Array` slot: zero in
every channel. -/
def zeroPixel : Pixel := ⟨0, 0, 0, 0⟩

/-- A decoded image as produced by `PNG.sync.read`: dimensions plus the
flat row-major RGBA buffer, modelled at pixel granularity (the source only
ever addresses the buffer at 4-byte-aligned offsets `(yy*width+xx)*4`). -/
structure Image where
  width : Nat
  height : Nat
  data : List Pixel
deriving DecidableEq, Repr

/-- A decoded PNG always satisfies this: the buffer holds exactly
`width*height` pixels (`width*height*4` bytes). -/
def Image.wf (img : Image) : Prop := img.data.length = img.width * img.height

instance : DecidablePred Image.wf := fun img => by
  unfold Image.wf; infer_instance

/-- An ignore rectangle `{x, y, width, height}` from the request's `ignore`
parameter (spec §3: non-negative integers). -/
structure Rect where
  x : Nat
  y : Nat
  width : Nat
  height : Nat
deriving DecidableEq, Repr

/-! ## Ignore-region masking (src/unnamed/part_001 lines 146–156)

```js
ignoreRegions.forEach(({ x, y, width: w, height: h }) => {
  for (let yy = y; yy < y + h; yy++) {
    for (let xx = x; xx < x + w; xx++) {
      const idx = (yy * img1.width + xx) * 4;
      img1.data[idx + 0] = img2.data[idx + 0];
      ...
      img1.data[idx + 3] = img2.data[idx + 3];
    }
  }
});
```

The byte offset `idx` is always 4-aligned, so each iteration copies one
whole pixel at linear pixel index `yy * img1.width + xx`.  JS typed-array
semantics: an assignment whose index is past the end of `img1.data` is
silently discarded, and a read past the end of `img2.data` yields
`undefined`, which the typed-array store coerces to `0` per channel. -/

/-- One loop-body iteration: copy the pixel at linear index `idx` of
`img2`'s buffer into slot `idx` of the accumulated image's buffer.
Out-of-range writes are dropped; out-of-range reads give `zeroPixel`. -/
def maskWrite (acc : Image) (img2 : Image) (idx : Nat) : Image :=
  if idx < acc.data.length then
    { acc with data := acc.data.set idx (img2.data.getD idx zeroPixel) }
  else acc

/-- The sequence of linear indices `(yy*w + xx)` visited by the two nested
`for` loops of one rectangle, in source iteration order (`yy` outer from
`r.y`, `xx` inner from `r.x`).  No clamping against the image dimensions
is performed, mirroring the source. -/
def rectIndices (w : Nat) (r : Rect) : List Nat :=
  (List.range r.height).flatMap fun dy =>
    (List.range r.width).map fun dx => (r.y + dy) * w + (r.x + dx)

/-- The two nested `for` loops for a single ignore rectangle.  `img1.width`
is read afresh each iteration in the source but never changes (only the
data buffer is written), so it is sampled once here. -/
def maskRect (acc : Image) (img2 : Image) (r : Rect) : Image :=
  (rectIndices acc.width r).foldl (fun a i => maskWrite a img2 i) acc

/-- `ignoreRegions.forEach(...)`: fold the per-rectangle masking over the
region list in order. -/
def maskRegions (img1 : Image) (img2 : Image) (rs : List Rect) : Image :=
  rs.foldl (fun a r => maskRect a img2 r) img1

/-! ## The pixel comparison (`pixelmatch` call, part_001 lines 158–163)

The comparison kernel itself is the external `pixelmatch` package — only
its call site is in the repository:

```js
const diff = new PNG({ width: img1.width, height: img1.height });
const numDiff = pixelmatch(img1.data, img2.data, diff.data,
                           img1.width, img1.height, { threshold: 0.1 });
```

`pixelmatch` throws (`Image sizes do not match.` /
`Image data size does not match width/height.`) when the two buffers have
different lengths or when the first buffer's length is not
`width*height*4`; note the call site passes only the *baseline's* width
and height, so no other dimension information ever reaches the kernel.

Modelled from the spec for the per-pixel kernel (§4.4): a per-pixel
normalized colour distance on a 0–1 scale with fixed threshold 0.1;
pixels whose distance exceeds the threshold are "changed" and highlighted
in the diff output, all others are rendered as a neutral grayscale pixel.
The distance here is the summed per-channel distance normalized by the
maximum `4*255 = 1020`; equal pixels have distance 0 (as in `pixelmatch`,
whose colour delta short-circuits to 0 on identical RGBA values).  The
anti-aliasing refinement of `pixelmatch` is not modelled; no theorem
below depends on the count for inputs that differ at some pixel. -/

/-- Summed per-channel distance between two pixels (0 … 1020). -/
def distSum (p q : Pixel) : Nat :=
  Nat.dist p.r q.r + Nat.dist p.g q.g + Nat.dist p.b q.b + Nat.dist p.a q.a

/-- `Modelled from the spec:` changed ⟺ normalized distance `distSum/1020`
exceeds the fixed threshold `0.1`, i.e. `distSum > 102`. -/
def pixelChanged (p q : Pixel) : Bool := 102 < distSum p q

/-- The highlight colour written into the diff image for a changed pixel
(opaque red, as drawn by `pixelmatch`). -/
def redPixel : Pixel := ⟨255, 0, 0, 255⟩

/-- `Modelled from the spec:` the neutral/background rendering of an
unchanged pixel in the diff output: the grayscale of the source pixel,
fully opaque. -/
def grayPixel (p : Pixel) : Pixel :=
  let v := (p.r * 299 + p.g * 587 + p.b * 114) / 1000
  ⟨v, v, v, 255⟩

/-- The `pixelmatch(data1, data2, out, w, h, {threshold: 0.1})` call:
`none` models the exception on a buffer-size mismatch, otherwise the
changed-pixel count together with the diff buffer. -/
def pixelmatchRun (d1 d2 : List Pixel) (w h : Nat) :
    Option (Nat × List Pixel) :=
  if d1.length ≠ d2.length then none
  else if d1.length ≠ w * h then none
  else some
    ((d1.zip d2).countP (fun pq => pixelChanged pq.1 pq.2),
     (d1.zip d2).map (fun pq =>
       if pixelChanged pq.1 pq.2 then redPixel else grayPixel pq.1))

/-- The Diff Engine (spec §4.4): the masking block followed by the
`pixelmatch` call, exactly as wired in part_001 lines 146–163.  `none`
models the thrown size error (caught by the handler's outer `catch`). -/
def diffEngine (baseline candidate : Image) (regions : List Rect) :
    Option (Nat × Image) :=
  let img1 := maskRegions baseline candidate regions
  match pixelmatchRun img1.data candidate.data img1.width img1.height with
  | none => none
  | some (n, dd) => some (n, ⟨img1.width, img1.height, dd⟩)

/-! ## Key derivation (part_001 lines 51–57)

```js
const hash = crypto.createHash("md5").update(url).digest("hex");
const base = `screenshots/${hash}`;
const now = Date.now();
const rawKey      = `${base}/capture-${now}.png`;
const baselineKey = `${base}/baseline.png`;
const diffKey     = `${base}/diff-${now}.png`;
```

`hash` abstracts the md5 hex digest; `ts` is the sampled `Date.now()`
value (a natural number rendered in decimal by the template literal). -/

/-- The three storage keys of one job (spec §3 `ArtifactKeySet`). -/
structure ArtifactKeySet where
  rawKey : String
  baselineKey : String
  diffKey : String
deriving DecidableEq, Repr

/-- The key-derivation block of `handleCapture` (spec §4.1 `deriveKeys`). -/
def deriveKeys (hash : String → String) (url : String) (ts : Nat) :
    ArtifactKeySet :=
  let h := hash url
  let base := "screenshots/" ++ h
  { rawKey := base ++ "/capture-" ++ toString ts ++ ".png"
    baselineKey := base ++ "/baseline.png"
    diffKey := base ++ "/diff-" ++ toString ts ++ ".png" }

/-! ## The blob store and the request surface -/

/-- The S3 bucket: a partial map from object keys to stored objects.  A
stored PNG buffer is modelled by the decoded image it denotes (pngjs
encode/decode round-trips losslessly). -/
def Store := String → Option Image

/-- `PutObjectCommand`: overwrite the object at `k`. -/
def Store.put (s : Store) (k : String) (v : Image) : Store :=
  fun k' => if k' = k then some v else s k'

/-- The store with no objects. -/
def Store.empty : Store := fun _ => none

/-- Outcome of `JSON.parse(ignore)` for the raw `ignore` query parameter:
either the decoded rectangle list or a parse failure.  (A payload that is
valid JSON but not a rectangle array is outside this model; part_001
would crash on it later, as a server error.) -/
inductive IgnorePayload where
  | valid (regions : List Rect)
  | malformed
deriving DecidableEq, Repr

/-- A capture request as it reaches `handleCapture`: the `url` query
parameter (`""` models absent/empty, both falsy in JS) and the optional
`ignore` parameter. -/
structure CaptureRequest where
  url : String
  ignore : Option IgnorePayload
deriving DecidableEq, Repr

/-- The ignore-parsing block (part_001 lines 42–49): no parameter means no
regions; a parse failure is `none` (→ 400 response). -/
def parseIgnore : Option IgnorePayload → Option (List Rect)
  | none => some []
  | some (.valid rs) => some rs
  | some .malformed => none

/-- Externally visible side effects of one job, in program order.  Used to
state that validation failures happen before any browser or storage
work. -/
inductive Effect where
  | launchBrowser
  | s3Put (key : String)
  | s3Get (key : String)
deriving DecidableEq, Repr

/-- The response shapes of the handlers.  `diffComplete` mirrors
part_001's diff response (`capture_url`, `baseline_url`, `diff_url` plus
the count in the message); `diffCompleteApp` mirrors the diff response of
the first `src/app.js` handler, which has only `capture_url` and
`diff_url`.  References are modelled by the object key they locate. -/
inductive Outcome where
  | clientError (msg : String)
  | serverError (msg : String)
  | baselineCreated (baselineRef : String)
  | diffComplete (count : Nat) (rawRef baselineRef diffRef : String)
  | diffCompleteApp (count : Nat) (rawRef diffRef : String)
deriving DecidableEq, Repr

/-- The artifact references carried by a response, in the order the
corresponding `res.json` object lists them. -/
def responseRefs : Outcome → List String
  | .clientError _ => []
  | .serverError _ => []
  | .baselineCreated b => [b]
  | .diffComplete _ r b d => [r, b, d]
  | .diffCompleteApp _ r d => [r, d]

/-- Result of one `handleCapture` invocation: the response, the store
afterwards, and the effect trace. -/
structure JsResult where
  outcome : Outcome
  store : Store
  effects : List Effect

/-- `handleCapture` of `src/unnamed/part_001` (lines 32–197).  Inputs
that stand for external collaborators: `hash` (md5), `render` (the image
the browser produced, `none` if any launch/navigate/locate/screenshot
step threw — caught by the outer `catch` as a 500), `ts` (`Date.now()`),
`store` (the S3 bucket).  Control flow in source order:
1. `!url` → 400 before anything else;
2. `JSON.parse(ignore)` failure → 400 before anything else;
3. derive keys, launch the browser, render;
4. upload the raw capture;
5. `GetObjectCommand(baselineKey)`: on failure (no baseline) store the
   screenshot as baseline and respond `Baseline created`;
6. otherwise run the Diff Engine; a size error → 500; else upload the
   diff and respond with all three references and the count. -/
def handleCapture (hash : String → String) (req : CaptureRequest)
    (render : Option Image) (ts : Nat) (store : Store) : JsResult :=
  if req.url = "" then
    ⟨.clientError "Missing url parameter", store, []⟩
  else
    match parseIgnore req.ignore with
    | none => ⟨.clientError "Invalid JSON for ignore regions", store, []⟩
    | some regions =>
      let keys := deriveKeys hash req.url ts
      match render with
      | none => ⟨.serverError "Capture Error", store, [.launchBrowser]⟩
      | some img =>
        let store1 := store.put keys.rawKey img
        match store1 keys.baselineKey with
        | none =>
          let store2 := store1.put keys.baselineKey img
          ⟨.baselineCreated keys.baselineKey, store2,
           [.launchBrowser, .s3Put keys.rawKey, .s3Get keys.baselineKey,
            .s3Put keys.baselineKey]⟩
        | some baselineBuf =>
          match diffEngine baselineBuf img regions with
          | none =>
            ⟨.serverError "Capture Error", store1,
             [.launchBrowser, .s3Put keys.rawKey, .s3Get keys.baselineKey]⟩
          | some (n, diffImg) =>
            let store2 := store1.put keys.diffKey diffImg
            ⟨.diffComplete n keys.rawKey keys.baselineKey keys.diffKey,
             store2,
             [.launchBrowser, .s3Put keys.rawKey, .s3Get keys.baselineKey,
              .s3Put keys.diffKey]⟩

/-- `handleCapture` of the first `src/app.js` handler (lines 21–113): no
`ignore` parameter, no masking, and a diff response that carries only
`capture_url` and `diff_url` (lines 103–107) — no baseline reference. -/
def handleCaptureApp (hash : String → String) (url : String)
    (render : Option Image) (ts : Nat) (store : Store) : JsResult :=
  if url = "" then
    ⟨.clientError "Missing 'url' query parameter.", store, []⟩
  else
    let keys := deriveKeys hash url ts
    match render with
    | none =>
      ⟨.serverError "Error capturing the requested content.", store,
       [.launchBrowser]⟩
    | some img =>
      let store1 := store.put keys.rawKey img
      match store1 keys.baselineKey with
      | none =>
        let store2 := store1.put keys.baselineKey img
        ⟨.baselineCreated keys.baselineKey, store2,
         [.launchBrowser, .s3Put keys.rawKey, .s3Get keys.baselineKey,
          .s3Put keys.baselineKey]⟩
      | some baselineBuf =>
        match pixelmatchRun baselineBuf.data img.data
            baselineBuf.width baselineBuf.height with
        | none =>
          ⟨.serverError "Error capturing the requested content.", store1,
           [.launchBrowser, .s3Put keys.rawKey, .s3Get keys.baselineKey]⟩
        | some (n, dd) =>
          let store2 := store1.put keys.diffKey
            ⟨baselineBuf.width, baselineBuf.height, dd⟩
          ⟨.diffCompleteApp n keys.rawKey keys.diffKey, store2,
           [.launchBrowser, .s3Put keys.rawKey, .s3Get keys.baselineKey,
            .s3Put keys.diffKey]⟩

/-! ## The single-worker queue (part_001 lines 14, 28–30)

```js
const queue = new Queue(1, Infinity);
app.get("/capture", (req, res) => { queue.add(() => handleCapture(req, res)); });
```

`promise-queue` with concurrency 1 and unbounded depth runs each added
job to settlement before starting the next, in insertion order.  A job is
a request together with its collaborator inputs and a wall-clock duration
(how long the browser work takes); the worker threads the store through
the jobs and the clock advances by each job's duration. -/

/-- One enqueued job: the request, what the browser will produce for it,
its `Date.now()` sample, and how long it runs. -/
structure QJob where
  req : CaptureRequest
  render : Option Image
  ts : Nat
  duration : Nat

/-- The single worker: run the head job to its terminal state, then the
rest against the resulting store.  Returns the final store and the
completion list `(outcome, completion time)` in completion order. -/
def runQueue (hash : String → String) :
    List QJob → Store → Nat → Store × List (Outcome × Nat)
  | [], store, _ => (store, [])
  | j :: rest, store, clock =>
    let r := handleCapture hash j.req j.render j.ts store
    let fin := clock + j.duration
    let rec1 := runQueue hash rest r.store fin
    (rec1.1, (r.outcome, fin) :: rec1.2)

/-- `Modelled from the spec:` "URL-shaped" input (spec §3 `targetUrl`
"non-empty, URL-shaped"; §4.1 "empty or malformed URL").  A string is
URL-shaped when it carries an http(s) scheme.  Used only to state what
the validation gate would have to reject. -/
def urlShaped (s : String) : Bool :=
  "http://".data.isPrefixOf s.data || "https://".data.isPrefixOf s.data

/-- Stand-in digest used to instantiate the abstract `hash` parameter in
concrete witnesses (any fixed function works; claims about the real md5's
collision behaviour are stated relative to `hash`). -/
def testHash (s : String) : String := s

/-! ## Concrete fixtures for witnesses and counterexamples -/

/-- A sample pixel. -/
def px1 : Pixel := ⟨10, 20, 30, 255⟩

/-- A contrasting sample pixel. -/
def px2 : Pixel := ⟨250, 240, 230, 255⟩

/-- A 1×1 test image. -/
def imgA : Image := ⟨1, 1, [px1]⟩

/-- A 2×2 test image, all pixels `px1`. -/
def img2x2 : Image := ⟨2, 2, [px1, px1, px1, px1]⟩

/-- `img2x2` with the bottom-right pixel flipped to `px2`. -/
def img2x2' : Image := ⟨2, 2, [px1, px1, px1, px2]⟩

/-- A 2×3 image (width 2, height 3) of six equal pixels. -/
def img2x3 : Image := ⟨2, 3, [px1, px1, px1, px1, px1, px1]⟩

/-- A 3×2 image (width 3, height 2) with the same six-pixel buffer as
`img2x3`. -/
def img3x2 : Image := ⟨3, 2, [px1, px1, px1, px1, px1, px1]⟩

/-- A store already holding a baseline for the identity of URL `"u"`
under the stand-in digest `testHash`. -/
def storeWithBaseline : Store :=
  Store.empty.put "screenshots/u/baseline.png" imgA

/-- Default `QJob` used with positional list access in queue lemmas. -/
def qdefault : QJob := ⟨⟨"", none⟩, none, 0, 0⟩

/-- Three queued requests A, B, C with different durations (7, 1, 4),
matching the spec's queue-ordering scenario. -/
def jobs3 : List QJob :=
  [⟨⟨"http://a", none⟩, some imgA, 1, 7⟩,
   ⟨⟨"http://b", none⟩, some imgA, 2, 1⟩,
   ⟨⟨"http://c", none⟩, some imgA, 3, 4⟩]


/-! ## Helper lemmas: storage-key disequalities -/

lemma String.eq_of_data_eq {s t : String} (h : s.data = t.data) : s = t := by
  cases s; cases t; exact congrArg String.mk h

lemma capture_ne_baseline (b t : String) :
    b ++ "/capture-" ++ t ++ ".png" ≠ b ++ "/baseline.png" := by
  intro h
  have hd := congrArg String.data h
  simp only [String.data_append, List.append_assoc] at hd
  have h2 := List.append_cancel_left hd
  simp only [List.cons_append] at h2
  injection h2 with h3 h4
  injection h4 with h5 h6
  exact absurd h5 (by decide)

lemma diff_ne_baseline (b t : String) :
    b ++ "/diff-" ++ t ++ ".png" ≠ b ++ "/baseline.png" := by
  intro h
  have hd := congrArg String.data h
  simp only [String.data_append, List.append_assoc] at hd
  have h2 := List.append_cancel_left hd
  simp only [List.cons_append] at h2
  injection h2 with h3 h4
  injection h4 with h5 h6
  exact absurd h5 (by decide)

lemma capture_ne_diff (b t t' : String) :
    b ++ "/capture-" ++ t ++ ".png" ≠ b ++ "/diff-" ++ t' ++ ".png" := by
  intro h
  have hd := congrArg String.data h
  simp only [String.data_append, List.append_assoc] at hd
  have h2 := List.append_cancel_left hd
  simp only [List.cons_append] at h2
  injection h2 with h3 h4
  injection h4 with h5 h6
  exact absurd h5 (by decide)

lemma deriveKeys_raw_ne_baseline (hash : String → String) (u : String)
    (ts : Nat) : (deriveKeys hash u ts).rawKey ≠ (deriveKeys hash u ts).baselineKey := by
  simpa [deriveKeys] using
    capture_ne_baseline ("screenshots/" ++ hash u) (toString ts)

lemma deriveKeys_diff_ne_baseline (hash : String → String) (u : String)
    (ts : Nat) : (deriveKeys hash u ts).diffKey ≠ (deriveKeys hash u ts).baselineKey := by
  simpa [deriveKeys] using
    diff_ne_baseline ("screenshots/" ++ hash u) (toString ts)

lemma deriveKeys_raw_ne_diff (hash : String → String) (u : String)
    (ts ts' : Nat) :
    (deriveKeys hash u ts).rawKey ≠ (deriveKeys hash u ts').diffKey := by
  simpa [deriveKeys] using
    capture_ne_diff ("screenshots/" ++ hash u) (toString ts) (toString ts')

lemma deriveKeys_baselineKey_ts (hash : String → String) (u : String)
    (ts ts' : Nat) :
    (deriveKeys hash u ts).baselineKey = (deriveKeys hash u ts').baselineKey := rfl

lemma baselineKey_inj (h1 h2 : String)
    (h : "screenshots/" ++ h1 ++ "/baseline.png" =
         "screenshots/" ++ h2 ++ "/baseline.png") : h1 = h2 := by
  have hd := congrArg String.data h
  simp only [String.data_append, List.append_assoc] at hd
  exact String.eq_of_data_eq
    (List.append_cancel_right (List.append_cancel_left hd))

/-! ## Helper lemmas: the masking fold -/

lemma getD_set_ne {α : Type _} (l : List α) (i j : Nat) (v z : α)
    (h : i ≠ j) : (l.set i v).getD j z = l.getD j z := by
  simp [List.getD, List.getElem?_set, h]

lemma getD_set_self {α : Type _} (l : List α) (i : Nat) (v z : α)
    (h : i < l.length) : (l.set i v).getD i z = v := by
  simp [List.getD, List.getElem?_set, h]

lemma maskWrite_width (a b : Image) (i : Nat) :
    (maskWrite a b i).width = a.width := by
  unfold maskWrite; split <;> rfl

lemma maskWrite_length (a b : Image) (i : Nat) :
    (maskWrite a b i).data.length = a.data.length := by
  unfold maskWrite; split <;> simp

lemma maskWrite_getD_ne (a b : Image) (i j : Nat) (h : i ≠ j) :
    (maskWrite a b i).data.getD j zeroPixel = a.data.getD j zeroPixel := by
  unfold maskWrite; split
  · exact getD_set_ne _ _ _ _ _ h
  · rfl

lemma maskWrite_getD_self (a b : Image) (i : Nat) (h : i < a.data.length) :
    (maskWrite a b i).data.getD i zeroPixel = b.data.getD i zeroPixel := by
  unfold maskWrite; rw [if_pos h]; exact getD_set_self _ _ _ _ h

lemma foldl_maskWrite_width (b : Image) (l : List Nat) (a : Image) :
    (l.foldl (fun x i => maskWrite x b i) a).width = a.width := by
  induction l generalizing a with
  | nil => rfl
  | cons j t ih => rw [List.foldl_cons, ih, maskWrite_width]

lemma foldl_maskWrite_length (b : Image) (l : List Nat) (a : Image) :
    (l.foldl (fun x i => maskWrite x b i) a).data.length = a.data.length := by
  induction l generalizing a with
  | nil => rfl
  | cons j t ih => rw [List.foldl_cons, ih, maskWrite_length]

lemma foldl_maskWrite_pres (b : Image) (l : List Nat) (a : Image) (i : Nat)
    (h : a.data.getD i zeroPixel = b.data.getD i zeroPixel) :
    (l.foldl (fun x i => maskWrite x b i) a).data.getD i zeroPixel =
      b.data.getD i zeroPixel := by
  induction l generalizing a with
  | nil => exact h
  | cons j t ih =>
    rw [List.foldl_cons]
    apply ih
    by_cases hji : j = i
    · subst hji
      by_cases hlt : j < a.data.length
      · exact maskWrite_getD_self a b j hlt
      · unfold maskWrite; rw [if_neg hlt]; exact h
    · rw [maskWrite_getD_ne a b j i hji]; exact h

lemma foldl_maskWrite_not_mem (b : Image) (l : List Nat) (a : Image)
    (i : Nat) (hi : i ∉ l) :
    (l.foldl (fun x i => maskWrite x b i) a).data.getD i zeroPixel =
      a.data.getD i zeroPixel := by
  induction l generalizing a with
  | nil => rfl
  | cons j t ih =>
    rw [List.foldl_cons, ih _ (fun hm => hi (List.mem_cons_of_mem j hm)),
        maskWrite_getD_ne a b j i (fun hji => hi (hji ▸ List.mem_cons_self j t))]

lemma foldl_maskWrite_mem (b : Image) (l : List Nat) (a : Image) (i : Nat)
    (hi : i ∈ l) (hlen : i < a.data.length) :
    (l.foldl (fun x i => maskWrite x b i) a).data.getD i zeroPixel =
      b.data.getD i zeroPixel := by
  induction l generalizing a with
  | nil => cases hi
  | cons j t ih =>
    rw [List.foldl_cons]
    rcases List.mem_cons.mp hi with hji | hmem
    · subst hji
      exact foldl_maskWrite_pres b t _ i (maskWrite_getD_self a b i hlen)
    · exact ih _ hmem (by rw [maskWrite_length]; exact hlen)

lemma maskRect_width (a b : Image) (r : Rect) :
    (maskRect a b r).width = a.width := foldl_maskWrite_width b _ a

lemma maskRect_length (a b : Image) (r : Rect) :
    (maskRect a b r).data.length = a.data.length := foldl_maskWrite_length b _ a

lemma maskRegions_width (a b : Image) (rs : List Rect) :
    (maskRegions a b rs).width = a.width := by
  induction rs generalizing a with
  | nil => rfl
  | cons r t ih => rw [maskRegions, List.foldl_cons, ← maskRegions, ih, maskRect_width]

lemma maskWrite_height (a b : Image) (i : Nat) :
    (maskWrite a b i).height = a.height := by
  unfold maskWrite; split <;> rfl

lemma foldl_maskWrite_height (b : Image) (l : List Nat) (a : Image) :
    (l.foldl (fun x i => maskWrite x b i) a).height = a.height := by
  induction l generalizing a with
  | nil => rfl
  | cons j t ih => rw [List.foldl_cons, ih, maskWrite_height]

lemma maskRect_height (a b : Image) (r : Rect) :
    (maskRect a b r).height = a.height := foldl_maskWrite_height b _ a

lemma maskRegions_height (a b : Image) (rs : List Rect) :
    (maskRegions a b rs).height = a.height := by
  induction rs generalizing a with
  | nil => rfl
  | cons r t ih => rw [maskRegions, List.foldl_cons, ← maskRegions, ih, maskRect_height]

lemma maskRegions_length (a b : Image) (rs : List Rect) :
    (maskRegions a b rs).data.length = a.data.length := by
  induction rs generalizing a with
  | nil => rfl
  | cons r t ih => rw [maskRegions, List.foldl_cons, ← maskRegions, ih, maskRect_length]

lemma maskRegions_pres (a b : Image) (rs : List Rect) (i : Nat)
    (h : a.data.getD i zeroPixel = b.data.getD i zeroPixel) :
    (maskRegions a b rs).data.getD i zeroPixel = b.data.getD i zeroPixel := by
  induction rs generalizing a with
  | nil => exact h
  | cons r t ih =>
    rw [maskRegions, List.foldl_cons, ← maskRegions]
    exact ih _ (foldl_maskWrite_pres b _ a i h)

lemma maskRegions_not_mem (a b : Image) (rs : List Rect) (i : Nat)
    (hi : ∀ r ∈ rs, i ∉ rectIndices a.width r) :
    (maskRegions a b rs).data.getD i zeroPixel = a.data.getD i zeroPixel := by
  induction rs generalizing a with
  | nil => rfl
  | cons r t ih =>
    rw [maskRegions, List.foldl_cons, ← maskRegions]
    rw [ih _ (fun r' hr' => by
      rw [maskRect_width]; exact hi r' (List.mem_cons_of_mem r hr'))]
    exact foldl_maskWrite_not_mem b _ a i (hi r (List.mem_cons_self r t))

lemma maskRegions_mem (a b : Image) (rs : List Rect) (i : Nat)
    (hi : ∃ r ∈ rs, i ∈ rectIndices a.width r) (hlen : i < a.data.length) :
    (maskRegions a b rs).data.getD i zeroPixel = b.data.getD i zeroPixel := by
  induction rs generalizing a with
  | nil => rcases hi with ⟨r, hr, _⟩; cases hr
  | cons r t ih =>
    rw [maskRegions, List.foldl_cons, ← maskRegions]
    rcases hi with ⟨r', hr', hmem⟩
    rcases List.mem_cons.mp hr' with hrr | htail
    · subst hrr
      exact maskRegions_pres _ b t i (foldl_maskWrite_mem b _ a i hmem hlen)
    · by_cases hin : i ∈ rectIndices a.width r
      · exact maskRegions_pres _ b t i (foldl_maskWrite_mem b _ a i hin hlen)
      · exact ih _ ⟨r', htail, by rw [maskRect_width]; exact hmem⟩
          (by rw [maskRect_length]; exact hlen)

lemma mem_rectIndices (w : Nat) (r : Rect) (x y : Nat)
    (hx1 : r.x ≤ x) (hx2 : x < r.x + r.width)
    (hy1 : r.y ≤ y) (hy2 : y < r.y + r.height) :
    y * w + x ∈ rectIndices w r := by
  unfold rectIndices
  rw [List.mem_flatMap]
  refine ⟨y - r.y, List.mem_range.mpr (by omega), ?_⟩
  rw [List.mem_map]
  refine ⟨x - r.x, List.mem_range.mpr (by omega), ?_⟩
  congr 1
  · congr 1; omega
  · omega

/-! ## Helper lemmas: the comparison kernel on equal inputs -/

lemma zip_self {α : Type _} (l : List α) : l.zip l = l.map (fun x => (x, x)) := by
  induction l with
  | nil => rfl
  | cons a t ih => simp [List.zip_cons_cons, ih]

lemma pixelChanged_self (p : Pixel) : pixelChanged p p = false := by
  simp [pixelChanged, distSum, Nat.dist_self]

lemma pixelmatchRun_self (l : List Pixel) (w h : Nat) (hl : l.length = w * h) :
    pixelmatchRun l l w h = some (0, l.map grayPixel) := by
  unfold pixelmatchRun
  rw [if_neg (by simp), if_neg (by simp [hl]), zip_self]
  have h1 : (l.map (fun x => (x, x))).countP
      (fun pq => pixelChanged pq.1 pq.2) = 0 := by
    rw [List.countP_map]
    exact List.countP_eq_zero.mpr (fun a _ => by
      simp [Function.comp, pixelChanged_self])
  have h2 : (l.map (fun x => (x, x))).map
      (fun pq => if pixelChanged pq.1 pq.2 then redPixel else grayPixel pq.1)
        = l.map grayPixel := by
    rw [List.map_map]
    exact List.map_congr_left (fun a _ => by simp [Function.comp, pixelChanged_self])
  rw [h1, h2]

lemma gray_ne_red (p : Pixel) : grayPixel p ≠ redPixel := by
  intro h
  have hr := congrArg Pixel.r h
  have hg := congrArg Pixel.g h
  simp only [grayPixel, redPixel] at hr hg
  omega

lemma getD_eq_getElem {α : Type _} (l : List α) (i : Nat) (z : α)
    (h : i < l.length) : l.getD i z = l[i] := by
  simp [List.getD, List.getElem?_eq_getElem h]

/-- If every in-bounds coordinate at which the two buffers differ lies in
some ignore rectangle, the masked baseline buffer is exactly the
candidate buffer. -/
lemma maskRegions_data_eq_of_cover (a b : Image) (rs : List Rect)
    (hw : a.width = b.width) (hh : a.height = b.height)
    (ha : a.wf) (hb : b.wf)
    (hcov : ∀ x, x < a.width → ∀ y, y < a.height →
      a.data.getD (y * a.width + x) zeroPixel ≠
        b.data.getD (y * a.width + x) zeroPixel →
      ∃ r ∈ rs, r.x ≤ x ∧ x < r.x + r.width ∧ r.y ≤ y ∧ y < r.y + r.height) :
    (maskRegions a b rs).data = b.data := by
  have hlen : (maskRegions a b rs).data.length = b.data.length := by
    rw [maskRegions_length, ha, hb, hw, hh]
  apply List.ext_getElem hlen
  intro i h1 h2
  have hia : i < a.data.length := by rwa [maskRegions_length] at h1
  rw [← getD_eq_getElem _ _ zeroPixel h1, ← getD_eq_getElem _ _ zeroPixel h2]
  have hw0 : 0 < a.width := by
    rcases Nat.eq_zero_or_pos a.width with h0 | h0
    · rw [ha, h0, Nat.zero_mul] at hia; omega
    · exact h0
  have hx : i % a.width < a.width := Nat.mod_lt _ hw0
  have hy : i / a.width < a.height := Nat.div_lt_of_lt_mul (by rwa [ha] at hia)
  have hieq : (i / a.width) * a.width + i % a.width = i := by
    rw [Nat.mul_comm]; exact Nat.div_add_mod i a.width
  by_cases heq : a.data.getD i zeroPixel = b.data.getD i zeroPixel
  · exact maskRegions_pres a b rs i heq
  · obtain ⟨r, hr, hcx1, hcx2, hcy1, hcy2⟩ :=
      hcov (i % a.width) hx (i / a.width) hy (by rwa [hieq])
    refine maskRegions_mem a b rs i ⟨r, hr, ?_⟩ hia
    have := mem_rectIndices a.width r (i % a.width) (i / a.width)
      hcx1 hcx2 hcy1 hcy2
    rwa [hieq] at this

lemma pixelmatchRun_eq_none_iff (d1 d2 : List Pixel) (w h : Nat) :
    pixelmatchRun d1 d2 w h = none ↔
      d1.length ≠ d2.length ∨ d1.length ≠ w * h := by
  unfold pixelmatchRun
  by_cases h1 : d1.length = d2.length
  · by_cases h2 : d1.length = w * h
    · simp [h1, h2]
    · simp [h1, h2]
  · simp [h1]


/-! ## C6 — reflexivity of the diff -/

/-- C6: for every image `a`, `diff(a, a, [])` — comparing an image against
a byte-identical copy of itself with no ignore regions — yields
`changedPixelCount == 0` and a diff image containing no highlighted
pixels (every output pixel is the neutral grayscale rendering, never the
highlight colour). -/
theorem diff_reflexive (a : Image) (ha : a.wf) :
    diffEngine a a [] = some (0, ⟨a.width, a.height, a.data.map grayPixel⟩) ∧
    ∀ p ∈ a.data.map grayPixel, p ≠ redPixel := by
  constructor
  · simp only [diffEngine, maskRegions, List.foldl_nil]
    rw [pixelmatchRun_self a.data a.width a.height ha]
  · intro p hp
    rcases List.mem_map.mp hp with ⟨q, _, rfl⟩
    exact gray_ne_red q

/-- Witness for C6 at the concrete 1×1 image `imgA`. -/
theorem diff_reflexive_witness :
    imgA.wf ∧
    (diffEngine imgA imgA [] = some (0, ⟨imgA.width, imgA.height, imgA.data.map grayPixel⟩) ∧
     ∀ p ∈ imgA.data.map grayPixel, p ≠ redPixel) :=
  ⟨by decide, diff_reflexive imgA (by decide)⟩

/-! ## C5 — the masking law -/

/-- C5: for equal-dimension well-formed images `a` and `b` and any region
list covering every coordinate at which `a` and `b` differ,
`diff(a, b, regions)` yields `changedPixelCount == 0`; and masking
overwrites, in the working copy, the baseline's pixel value with the
candidate's value at every in-bounds coordinate inside any listed
rectangle (the original `a` is untouched — `maskRegions` returns a new
value). -/
theorem diff_masking_law (a b : Image) (rs : List Rect)
    (hw : a.width = b.width) (hh : a.height = b.height)
    (ha : a.wf) (hb : b.wf)
    (hcov : ∀ x, x < a.width → ∀ y, y < a.height →
      a.data.getD (y * a.width + x) zeroPixel ≠
        b.data.getD (y * a.width + x) zeroPixel →
      ∃ r ∈ rs, r.x ≤ x ∧ x < r.x + r.width ∧ r.y ≤ y ∧ y < r.y + r.height) :
    diffEngine a b rs = some (0, ⟨a.width, a.height, b.data.map grayPixel⟩) ∧
    ∀ x, x < a.width → ∀ y, y < a.height →
      (∃ r ∈ rs, r.x ≤ x ∧ x < r.x + r.width ∧ r.y ≤ y ∧ y < r.y + r.height) →
      (maskRegions a b rs).data.getD (y * a.width + x) zeroPixel
        = b.data.getD (y * a.width + x) zeroPixel := by
  constructor
  · have hmd := maskRegions_data_eq_of_cover a b rs hw hh ha hb hcov
    simp only [diffEngine]
    rw [hmd, maskRegions_width, maskRegions_height,
        pixelmatchRun_self b.data a.width a.height (by rw [hb, hw, hh])]
  · intro x hx y hy ⟨r, hr, hcx1, hcx2, hcy1, hcy2⟩
    have hidx : y * a.width + x < a.data.length := by
      have h1 : y * a.width + x < (y + 1) * a.width := by
        rw [Nat.succ_mul]; omega
      have h2 : (y + 1) * a.width ≤ a.height * a.width :=
        Nat.mul_le_mul_right a.width hy
      rw [ha]
      exact lt_of_lt_of_le h1
        (le_of_le_of_eq h2 (Nat.mul_comm a.height a.width))
    exact maskRegions_mem a b rs _
      ⟨r, hr, mem_rectIndices a.width r x y hcx1 hcx2 hcy1 hcy2⟩ hidx

/-- Witness for C5: `img2x2` vs `img2x2'` differ exactly at coordinate
(1,1); the single rectangle `{x:1, y:1, w:1, h:1}` covers it and the diff
count is 0. -/
theorem diff_masking_law_witness :
    (img2x2.width = img2x2'.width ∧ img2x2.height = img2x2'.height ∧
     img2x2.wf ∧ img2x2'.wf ∧
     (∀ x, x < img2x2.width → ∀ y, y < img2x2.height →
       img2x2.data.getD (y * img2x2.width + x) zeroPixel ≠
         img2x2'.data.getD (y * img2x2.width + x) zeroPixel →
       ∃ r ∈ [Rect.mk 1 1 1 1], r.x ≤ x ∧ x < r.x + r.width ∧
         r.y ≤ y ∧ y < r.y + r.height)) ∧
    (diffEngine img2x2 img2x2' [Rect.mk 1 1 1 1]
        = some (0, ⟨img2x2.width, img2x2.height, img2x2'.data.map grayPixel⟩) ∧
     ∀ x, x < img2x2.width → ∀ y, y < img2x2.height →
      (∃ r ∈ [Rect.mk 1 1 1 1], r.x ≤ x ∧ x < r.x + r.width ∧
         r.y ≤ y ∧ y < r.y + r.height) →
      (maskRegions img2x2 img2x2' [Rect.mk 1 1 1 1]).data.getD
          (y * img2x2.width + x) zeroPixel
        = img2x2'.data.getD (y * img2x2.width + x) zeroPixel) :=
  ⟨⟨by decide, by decide, by decide, by decide, by decide⟩,
   diff_masking_law img2x2 img2x2' [Rect.mk 1 1 1 1]
     (by decide) (by decide) (by decide) (by decide) (by decide)⟩

/-! ## C4 — the dimension check -/

/-- C4 (amended): the Diff Engine raises its size error exactly when the
two images' pixel-buffer sizes (`width*height`) differ — and then
produces no result at all; a width/height mismatch that preserves the
pixel count (e.g. transposed dimensions) is *not* detected, because the
call site hands `pixelmatch` only the baseline's width and height. -/
theorem diff_size_check (a b : Image) (rs : List Rect)
    (ha : a.wf) (hb : b.wf) :
    diffEngine a b rs = none ↔ a.width * a.height ≠ b.width * b.height := by
  have hlen : (maskRegions a b rs).data.length = a.width * a.height := by
    rw [maskRegions_length, ha]
  have hde : diffEngine a b rs = none ↔
      pixelmatchRun (maskRegions a b rs).data b.data
        (maskRegions a b rs).width (maskRegions a b rs).height = none := by
    cases hpm : pixelmatchRun (maskRegions a b rs).data b.data
        (maskRegions a b rs).width (maskRegions a b rs).height with
    | none => simp [diffEngine, hpm]
    | some v => cases v with | mk n dd => simp [diffEngine, hpm]
  rw [hde, pixelmatchRun_eq_none_iff, maskRegions_width, maskRegions_height,
      hlen, hb]
  simp

/-- Counterexample for C4 as stated: `img2x3` (2×3) and `img3x2` (3×2)
have different widths and heights, yet the diff does not error — the
equal buffer sizes slip through `pixelmatch`'s only check and a diff
result is produced (using the baseline's dimensions). -/
theorem diff_size_check_counterexample :
    img2x3.width ≠ img3x2.width ∧ img2x3.height ≠ img3x2.height ∧
    diffEngine img2x3 img3x2 [] =
      some (0, ⟨2, 3, img3x2.data.map grayPixel⟩) := by
  refine ⟨by decide, by decide, ?_⟩
  decide

/-- Witness for C4 (amended) at 1×1 vs 1×2 images (buffer sizes 1 ≠ 2:
the size error fires, no partial diff exists). -/
theorem diff_size_check_witness :
    imgA.wf ∧ img2x2.wf ∧
    (diffEngine imgA img2x2 [] = none ↔
      imgA.width * imgA.height ≠ img2x2.width * img2x2.height) :=
  ⟨by decide, by decide, diff_size_check imgA img2x2 [] (by decide) (by decide)⟩

/-! ## C10 — no bounds checking in the masking loop -/

/-- C10: the masking loop does no bounds checking against the image
dimensions.  For a rectangle confined to row 0 (`y = 0`, `height = 1`)
whose `x + width` overruns the image width, the linearized index
`yy*width + xx` runs into the next row: the pixel at linear index
`a.width` — coordinate (0, 1), geometrically *outside* the rectangle
(`r.y + r.height ≤ 1`) — is overwritten with the candidate's value.
Writes whose linearized index falls past the end of the buffer are
silently dropped (`maskWrite` is the identity there), never an error,
and masking never changes the buffer length. -/
theorem mask_no_bounds_check (a b : Image) (r : Rect)
    (hy : r.y = 0) (hh : r.height = 1)
    (hx1 : r.x ≤ a.width) (hx2 : a.width < r.x + r.width)
    (hlen : a.width < a.data.length) :
    r.y + r.height ≤ 1 ∧
    (maskRegions a b [r]).data.getD a.width zeroPixel
      = b.data.getD a.width zeroPixel ∧
    (∀ rs : List Rect, (maskRegions a b rs).data.length = a.data.length) ∧
    (∀ (img c : Image) (i : Nat), img.data.length ≤ i → maskWrite img c i = img) := by
  refine ⟨by omega, ?_, fun rs => maskRegions_length a b rs,
          fun img c i hi => by unfold maskWrite; rw [if_neg (by omega)]⟩
  have hmem : a.width ∈ rectIndices a.width r := by
    have := mem_rectIndices a.width r a.width 0 hx1 hx2 (by omega) (by omega)
    simpa using this
  exact maskRegions_mem a b [r] a.width ⟨r, by simp, hmem⟩ hlen

/-- Witness for C10 at the concrete 2×2 images: rectangle
`{x:1, y:0, w:2, h:1}` covers only row 0 geometrically, yet pixel (0,1)
(linear index 2) ends up with the candidate's value. -/
theorem mask_no_bounds_check_witness :
    ((Rect.mk 1 0 2 1).y = 0 ∧ (Rect.mk 1 0 2 1).height = 1 ∧
     (Rect.mk 1 0 2 1).x ≤ img2x2.width ∧
     img2x2.width < (Rect.mk 1 0 2 1).x + (Rect.mk 1 0 2 1).width ∧
     img2x2.width < img2x2.data.length) ∧
    ((Rect.mk 1 0 2 1).y + (Rect.mk 1 0 2 1).height ≤ 1 ∧
     (maskRegions img2x2 img2x2' [Rect.mk 1 0 2 1]).data.getD
         img2x2.width zeroPixel
       = img2x2'.data.getD img2x2.width zeroPixel ∧
     (∀ rs : List Rect,
       (maskRegions img2x2 img2x2' rs).data.length = img2x2.data.length) ∧
     (∀ (img c : Image) (i : Nat), img.data.length ≤ i → maskWrite img c i = img)) :=
  ⟨⟨by decide, by decide, by decide, by decide, by decide⟩,
   mask_no_bounds_check img2x2 img2x2' (Rect.mk 1 0 2 1)
     (by decide) (by decide) (by decide) (by decide) (by decide)⟩

/-! ## Helper lemmas: the store and the handler -/

lemma put_ne (s : Store) (k k' : String) (v : Image) (h : k' ≠ k) :
    (s.put k v) k' = s k' := by
  unfold Store.put; rw [if_neg h]

lemma put_self (s : Store) (k : String) (v : Image) :
    (s.put k v) k = some v := by
  unfold Store.put; rw [if_pos rfl]

/-- One job never touches an established baseline object for its own
identity: the handler writes `baselineKey` only in the branch where the
lookup found nothing, and its other writes go to the per-job
`capture-…`/`diff-…` keys, which can never equal `…/baseline.png`. -/
lemma handleCapture_preserves_baseline (hash : String → String)
    (req : CaptureRequest) (render : Option Image) (ts ts0 : Nat)
    (store : Store) (b : Image)
    (hb : store (deriveKeys hash req.url ts0).baselineKey = some b) :
    (handleCapture hash req render ts store).store
      (deriveKeys hash req.url ts0).baselineKey = some b := by
  rw [deriveKeys_baselineKey_ts hash req.url ts0 ts] at hb ⊢
  unfold handleCapture
  by_cases hu : req.url = ""
  · rw [if_pos hu]; exact hb
  · rw [if_neg hu]
    cases hpi : parseIgnore req.ignore with
    | none => exact hb
    | some regions =>
      cases render with
      | none => exact hb
      | some img =>
        dsimp only
        have hput : (store.put (deriveKeys hash req.url ts).rawKey img)
            (deriveKeys hash req.url ts).baselineKey = some b := by
          rw [put_ne _ _ _ _
            (fun h => deriveKeys_raw_ne_baseline hash req.url ts h.symm)]
          exact hb
        rw [hput]
        dsimp only
        cases hde : diffEngine b img regions with
        | none => exact hput
        | some v =>
          cases v with
          | mk n d =>
            dsimp only
            rw [put_ne _ _ _ _
              (fun h => deriveKeys_diff_ne_baseline hash req.url ts h.symm)]
            exact hput

/-- C1: once a baseline object exists for an identity, no later job for
that identity ever overwrites it — across any sequence of queued jobs for
the same URL, against any store, with any render results and timestamps,
the stored baseline image is unchanged. -/
theorem baseline_immutable_across_jobs (hash : String → String)
    (jobs : List QJob) (u : String) (store : Store) (clock ts0 : Nat)
    (b : Image)
    (hjobs : ∀ j ∈ jobs, j.req.url = u)
    (hb : store (deriveKeys hash u ts0).baselineKey = some b) :
    (runQueue hash jobs store clock).1
      (deriveKeys hash u ts0).baselineKey = some b := by
  induction jobs generalizing store clock with
  | nil => exact hb
  | cons j rest ih =>
    have hurl := hjobs j (List.mem_cons_self j rest)
    have hb' : store (deriveKeys hash j.req.url ts0).baselineKey = some b := by
      rw [hurl]; exact hb
    have hpres := handleCapture_preserves_baseline hash j.req j.render
      j.ts ts0 store b hb'
    rw [hurl] at hpres
    show (runQueue hash rest
        (handleCapture hash j.req j.render j.ts store).store
        (clock + j.duration)).1 (deriveKeys hash u ts0).baselineKey = some b
    exact ih _ _ (fun j' hj' => hjobs j' (List.mem_cons_of_mem j hj')) hpres

/-- Witness for C1: a two-job queue for the identity of `"u"` against a
store that already holds `imgA` as the baseline; the candidate `img2x2`
differs from the baseline, yet the stored baseline is still `imgA`. -/
theorem baseline_immutable_across_jobs_witness :
    (∀ j ∈ [QJob.mk ⟨"u", none⟩ (some img2x2) 5 1,
            QJob.mk ⟨"u", none⟩ (some img2x2') 6 2], j.req.url = "u") ∧
    storeWithBaseline (deriveKeys testHash "u" 9).baselineKey = some imgA ∧
    (runQueue testHash
        [QJob.mk ⟨"u", none⟩ (some img2x2) 5 1,
         QJob.mk ⟨"u", none⟩ (some img2x2') 6 2]
        storeWithBaseline 0).1
      (deriveKeys testHash "u" 9).baselineKey = some imgA :=
  ⟨by decide, by decide,
   baseline_immutable_across_jobs testHash
     [QJob.mk ⟨"u", none⟩ (some img2x2) 5 1,
      QJob.mk ⟨"u", none⟩ (some img2x2') 6 2]
     "u" storeWithBaseline 0 9 imgA (by decide) (by decide)⟩

/-! ## C2 — first sight establishes a baseline, identical repeat diffs to 0 -/

/-- C2: a capture request for a never-seen identity stores the candidate
as baseline and responds `baselineCreated` — the effect trace shows no
diff was computed or uploaded; a second request for the same identity
whose rendered image is identical goes down the comparison path and
reports `changedPixelCount == 0`. -/
theorem first_sight_then_zero_diff (hash : String → String) (u : String)
    (img : Image) (ts ts' : Nat) (store : Store)
    (hu : u ≠ "") (hwf : img.wf)
    (hb : store (deriveKeys hash u ts).baselineKey = none) :
    (handleCapture hash ⟨u, none⟩ (some img) ts store).outcome
      = .baselineCreated (deriveKeys hash u ts).baselineKey ∧
    (handleCapture hash ⟨u, none⟩ (some img) ts store).effects
      = [.launchBrowser, .s3Put (deriveKeys hash u ts).rawKey,
         .s3Get (deriveKeys hash u ts).baselineKey,
         .s3Put (deriveKeys hash u ts).baselineKey] ∧
    (handleCapture hash ⟨u, none⟩ (some img) ts'
        (handleCapture hash ⟨u, none⟩ (some img) ts store).store).outcome
      = .diffComplete 0 (deriveKeys hash u ts').rawKey
          (deriveKeys hash u ts').baselineKey (deriveKeys hash u ts').diffKey := by
  have hlook1 : (store.put (deriveKeys hash u ts).rawKey img)
      (deriveKeys hash u ts).baselineKey = none := by
    rw [put_ne _ _ _ _ (fun h => deriveKeys_raw_ne_baseline hash u ts h.symm)]
    exact hb
  have hr1 : handleCapture hash ⟨u, none⟩ (some img) ts store
      = ⟨.baselineCreated (deriveKeys hash u ts).baselineKey,
         (store.put (deriveKeys hash u ts).rawKey img).put
           (deriveKeys hash u ts).baselineKey img,
         [.launchBrowser, .s3Put (deriveKeys hash u ts).rawKey,
          .s3Get (deriveKeys hash u ts).baselineKey,
          .s3Put (deriveKeys hash u ts).baselineKey]⟩ := by
    unfold handleCapture
    rw [if_neg hu]
    dsimp only [parseIgnore]
    rw [hlook1]
  refine ⟨by rw [hr1], by rw [hr1], ?_⟩
  rw [hr1]
  have hde : diffEngine img img [] =
      some (0, ⟨img.width, img.height, img.data.map grayPixel⟩) := by
    simp only [diffEngine, maskRegions, List.foldl_nil]
    rw [pixelmatchRun_self img.data img.width img.height hwf]
  have hlook2 : ((store.put (deriveKeys hash u ts).rawKey img).put
        (deriveKeys hash u ts).baselineKey img).put
        (deriveKeys hash u ts').rawKey img
      ((deriveKeys hash u ts').baselineKey) = some img := by
    rw [put_ne _ _ _ _ (fun h => deriveKeys_raw_ne_baseline hash u ts' h.symm),
        deriveKeys_baselineKey_ts hash u ts' ts, put_self]
  unfold handleCapture
  rw [if_neg hu]
  dsimp only [parseIgnore]
  rw [hlook2]
  dsimp only
  rw [hde]

/-- Witness for C2: URL `"u"`, never seen in the empty store, rendered as
`imgA` at both calls (timestamps 1 and 2). -/
theorem first_sight_then_zero_diff_witness :
    ("u" ≠ "" ∧ imgA.wf ∧
     Store.empty (deriveKeys testHash "u" 1).baselineKey = none) ∧
    ((handleCapture testHash ⟨"u", none⟩ (some imgA) 1 Store.empty).outcome
       = .baselineCreated (deriveKeys testHash "u" 1).baselineKey ∧
     (handleCapture testHash ⟨"u", none⟩ (some imgA) 1 Store.empty).effects
       = [.launchBrowser, .s3Put (deriveKeys testHash "u" 1).rawKey,
          .s3Get (deriveKeys testHash "u" 1).baselineKey,
          .s3Put (deriveKeys testHash "u" 1).baselineKey] ∧
     (handleCapture testHash ⟨"u", none⟩ (some imgA) 2
         (handleCapture testHash ⟨"u", none⟩ (some imgA) 1 Store.empty).store).outcome
       = .diffComplete 0 (deriveKeys testHash "u" 2).rawKey
           (deriveKeys testHash "u" 2).baselineKey
           (deriveKeys testHash "u" 2).diffKey) :=
  ⟨⟨by decide, by decide, rfl⟩,
   first_sight_then_zero_diff testHash "u" imgA 1 2 Store.empty
     (by decide) (by decide) rfl⟩

/-! ## C3 — the validation gate -/

/-- C3 (amended): an absent/empty `url` and an unparseable `ignore`
payload are rejected with a client error before any browser or storage
work (the effect trace is empty, the store untouched); a *non-empty
malformed* URL, however, is not rejected at the gate — the only URL check
in the source is `if (!url)`. -/
theorem validation_gate (hash : String → String) :
    (∀ (ig : Option IgnorePayload) (render : Option Image) (ts : Nat)
        (store : Store),
      handleCapture hash ⟨"", ig⟩ render ts store
        = ⟨.clientError "Missing url parameter", store, []⟩) ∧
    (∀ (u : String) (render : Option Image) (ts : Nat) (store : Store),
      u ≠ "" →
      handleCapture hash ⟨u, some .malformed⟩ render ts store
        = ⟨.clientError "Invalid JSON for ignore regions", store, []⟩) := by
  constructor
  · intro ig render ts store
    rfl
  · intro u render ts store hu
    unfold handleCapture
    rw [if_neg hu]
    rfl

/-- Witness for C3 (amended) at concrete inputs. -/
theorem validation_gate_witness :
    (handleCapture testHash ⟨"", none⟩ none 0 Store.empty
       = ⟨.clientError "Missing url parameter", Store.empty, []⟩) ∧
    ("http://x" ≠ "") ∧
    (handleCapture testHash ⟨"http://x", some .malformed⟩ none 0 Store.empty
       = ⟨.clientError "Invalid JSON for ignore regions", Store.empty, []⟩) :=
  ⟨(validation_gate testHash).1 none none 0 Store.empty, by decide,
   (validation_gate testHash).2 "http://x" none 0 Store.empty (by decide)⟩

/-- Counterexample for C3 as stated: `"not a url"` is not URL-shaped, yet
the request is not rejected by the gate — the browser is launched (the
effect trace is non-empty) and the failure surfaces as a *server* error,
not a client error. -/
theorem validation_gate_counterexample :
    urlShaped "not a url" = false ∧
    (handleCapture testHash ⟨"not a url", none⟩ none 5 Store.empty).outcome
      = .serverError "Capture Error" ∧
    (handleCapture testHash ⟨"not a url", none⟩ none 5 Store.empty).effects
      = [.launchBrowser] := by
  refine ⟨by decide, rfl, rfl⟩

/-! ## C7 — key derivation -/

/-- Counterexample for C7 as stated: the key-derivation block samples
`Date.now()`, so two calls for the byte-identical URL at different
moments yield *different* `ArtifactKeySet`s (the `capture-…`/`diff-…`
keys embed the timestamp). -/
theorem deriveKeys_counterexample :
    deriveKeys testHash "https://example.com" 1000
      ≠ deriveKeys testHash "https://example.com" 1001 := by
  decide

/-- C7 (amended): `deriveKeys` is deterministic given the sampled
timestamp; its `baselineKey` depends only on the URL's digest — it is
identical across calls at any timestamps — and URLs with distinct
digests get distinct baseline keys (distinctness holds exactly up to an
md5 collision, which has overwhelming improbability; the digest is the
abstract `hash` parameter here). -/
theorem deriveKeys_baseline_stable (hash : String → String)
    (u u' : String) (ts ts' : Nat) :
    (deriveKeys hash u ts).baselineKey = (deriveKeys hash u ts').baselineKey ∧
    (hash u ≠ hash u' →
      (deriveKeys hash u ts).baselineKey ≠ (deriveKeys hash u' ts').baselineKey) := by
  refine ⟨rfl, fun hne heq => hne ?_⟩
  exact baselineKey_inj (hash u) (hash u') heq

/-- Witness for C7 (amended) under the stand-in digest. -/
theorem deriveKeys_baseline_stable_witness :
    ((deriveKeys testHash "a" 1).baselineKey
       = (deriveKeys testHash "a" 2).baselineKey) ∧
    (testHash "a" ≠ testHash "b") ∧
    ((deriveKeys testHash "a" 1).baselineKey
       ≠ (deriveKeys testHash "b" 2).baselineKey) :=
  ⟨(deriveKeys_baseline_stable testHash "a" "b" 1 2).1, by decide,
   (deriveKeys_baseline_stable testHash "a" "b" 1 2).2 (by decide)⟩

/-! ## C9 — the diff-complete response -/

/-- C9 (amended, part_001): every job that reaches the comparison path
and completes successfully responds with references to all three
persisted artifacts — raw capture, baseline and diff — plus the
changed-pixel count, and all three objects are present in the store
afterwards.  (The first `src/app.js` handler deviates: see the
counterexample.) -/
theorem diff_response_all_refs (hash : String → String)
    (req : CaptureRequest) (img b d : Image) (ts : Nat) (store : Store)
    (rs : List Rect) (n : Nat)
    (hu : req.url ≠ "") (hpi : parseIgnore req.ignore = some rs)
    (hb : store (deriveKeys hash req.url ts).baselineKey = some b)
    (hde : diffEngine b img rs = some (n, d)) :
    (handleCapture hash req (some img) ts store).outcome
      = .diffComplete n (deriveKeys hash req.url ts).rawKey
          (deriveKeys hash req.url ts).baselineKey
          (deriveKeys hash req.url ts).diffKey ∧
    responseRefs (handleCapture hash req (some img) ts store).outcome
      = [(deriveKeys hash req.url ts).rawKey,
         (deriveKeys hash req.url ts).baselineKey,
         (deriveKeys hash req.url ts).diffKey] ∧
    (handleCapture hash req (some img) ts store).store
      (deriveKeys hash req.url ts).rawKey = some img ∧
    (handleCapture hash req (some img) ts store).store
      (deriveKeys hash req.url ts).baselineKey = some b ∧
    (handleCapture hash req (some img) ts store).store
      (deriveKeys hash req.url ts).diffKey = some d := by
  have hlook : (store.put (deriveKeys hash req.url ts).rawKey img)
      (deriveKeys hash req.url ts).baselineKey = some b := by
    rw [put_ne _ _ _ _
      (fun h => deriveKeys_raw_ne_baseline hash req.url ts h.symm)]
    exact hb
  have hr : handleCapture hash req (some img) ts store
      = ⟨.diffComplete n (deriveKeys hash req.url ts).rawKey
           (deriveKeys hash req.url ts).baselineKey
           (deriveKeys hash req.url ts).diffKey,
         (store.put (deriveKeys hash req.url ts).rawKey img).put
           (deriveKeys hash req.url ts).diffKey d,
         [.launchBrowser, .s3Put (deriveKeys hash req.url ts).rawKey,
          .s3Get (deriveKeys hash req.url ts).baselineKey,
          .s3Put (deriveKeys hash req.url ts).diffKey]⟩ := by
    unfold handleCapture
    rw [if_neg hu]
    cases hopt : req.ignore with
    | none =>
      rw [hopt] at hpi
      cases hpi
      dsimp only
      rw [hlook]
      dsimp only [parseIgnore]
      rw [hde]
    | some payload =>
      cases payload with
      | malformed => rw [hopt] at hpi; cases hpi
      | valid rs' =>
        rw [hopt] at hpi
        cases hpi
        dsimp only
        rw [hlook]
        dsimp only [parseIgnore]
        rw [hde]
  refine ⟨by rw [hr], by rw [hr]; rfl, ?_, ?_, ?_⟩
  · rw [hr]
    show ((store.put (deriveKeys hash req.url ts).rawKey img).put
      (deriveKeys hash req.url ts).diffKey d)
        (deriveKeys hash req.url ts).rawKey = some img
    rw [put_ne _ _ _ _ (deriveKeys_raw_ne_diff hash req.url ts ts), put_self]
  · rw [hr]
    show ((store.put (deriveKeys hash req.url ts).rawKey img).put
      (deriveKeys hash req.url ts).diffKey d)
        (deriveKeys hash req.url ts).baselineKey = some b
    rw [put_ne _ _ _ _
      (fun h => deriveKeys_diff_ne_baseline hash req.url ts h.symm)]
    exact hlook
  · rw [hr]
    show ((store.put (deriveKeys hash req.url ts).rawKey img).put
      (deriveKeys hash req.url ts).diffKey d)
        (deriveKeys hash req.url ts).diffKey = some d
    rw [put_self]

/-- Witness for C9 (amended) at concrete inputs: identity of `"u"` with
an existing baseline `imgA`, identical candidate, no ignore regions. -/
theorem diff_response_all_refs_witness :
    (("u" : String) ≠ "" ∧
     parseIgnore (CaptureRequest.mk "u" none).ignore = some [] ∧
     storeWithBaseline (deriveKeys testHash "u" 7).baselineKey = some imgA ∧
     diffEngine imgA imgA []
       = some (0, ⟨imgA.width, imgA.height, imgA.data.map grayPixel⟩)) ∧
    ((handleCapture testHash ⟨"u", none⟩ (some imgA) 7 storeWithBaseline).outcome
       = .diffComplete 0 (deriveKeys testHash "u" 7).rawKey
           (deriveKeys testHash "u" 7).baselineKey
           (deriveKeys testHash "u" 7).diffKey ∧
     responseRefs
        (handleCapture testHash ⟨"u", none⟩ (some imgA) 7 storeWithBaseline).outcome
       = [(deriveKeys testHash "u" 7).rawKey,
          (deriveKeys testHash "u" 7).baselineKey,
          (deriveKeys testHash "u" 7).diffKey] ∧
     (handleCapture testHash ⟨"u", none⟩ (some imgA) 7 storeWithBaseline).store
       (deriveKeys testHash "u" 7).rawKey = some imgA ∧
     (handleCapture testHash ⟨"u", none⟩ (some imgA) 7 storeWithBaseline).store
       (deriveKeys testHash "u" 7).baselineKey = some imgA ∧
     (handleCapture testHash ⟨"u", none⟩ (some imgA) 7 storeWithBaseline).store
       (deriveKeys testHash "u" 7).diffKey
         = some ⟨imgA.width, imgA.height, imgA.data.map grayPixel⟩) :=
  ⟨⟨by decide, rfl, by decide, by decide⟩,
   diff_response_all_refs testHash ⟨"u", none⟩ imgA imgA
     ⟨imgA.width, imgA.height, imgA.data.map grayPixel⟩ 7 storeWithBaseline
     [] 0 (by decide) rfl (by decide) (by decide)⟩

/-- Counterexample for C9 as stated: the first `src/app.js` handler
(lines 103–107) responds on the comparison path with only the raw and
diff references — the baseline reference is absent from the response even
though the baseline object sits in the store. -/
theorem diff_response_missing_baseline_ref :
    (handleCaptureApp testHash "u" (some imgA) 7 storeWithBaseline).outcome
      = .diffCompleteApp 0 "screenshots/u/capture-7.png"
          "screenshots/u/diff-7.png" ∧
    "screenshots/u/baseline.png" ∉
      responseRefs
        (handleCaptureApp testHash "u" (some imgA) 7 storeWithBaseline).outcome ∧
    (handleCaptureApp testHash "u" (some imgA) 7 storeWithBaseline).store
      "screenshots/u/baseline.png" = some imgA := by
  refine ⟨by decide, by decide, by decide⟩

/-! ## Helper lemmas: the single-worker queue -/

lemma runQueue_cons (hash : String → String) (j : QJob) (rest : List QJob)
    (store : Store) (clock : Nat) :
    runQueue hash (j :: rest) store clock =
      ((runQueue hash rest
          (handleCapture hash j.req j.render j.ts store).store
          (clock + j.duration)).1,
       ((handleCapture hash j.req j.render j.ts store).outcome,
        clock + j.duration)
         :: (runQueue hash rest
              (handleCapture hash j.req j.render j.ts store).store
              (clock + j.duration)).2) := rfl

lemma runQueue_length (hash : String → String) (jobs : List QJob)
    (store : Store) (clock : Nat) :
    (runQueue hash jobs store clock).2.length = jobs.length := by
  induction jobs generalizing store clock with
  | nil => rfl
  | cons j rest ih => rw [runQueue_cons]; simp [ih]

lemma runQueue_head_time_ge (hash : String → String) (jobs : List QJob)
    (store : Store) (clock : Nat) :
    ∀ p ∈ (runQueue hash jobs store clock).2.head?, clock ≤ p.2 := by
  cases jobs with
  | nil => intro p hp; cases hp
  | cons j rest =>
    rw [runQueue_cons]
    intro p hp
    simp only [List.head?_cons, Option.mem_def, Option.some.injEq] at hp
    subst hp
    omega

lemma runQueue_times_mono (hash : String → String) (jobs : List QJob)
    (store : Store) (clock : Nat) :
    List.Chain' (fun p q : Outcome × Nat => p.2 ≤ q.2)
      (runQueue hash jobs store clock).2 := by
  induction jobs generalizing store clock with
  | nil => exact List.chain'_nil
  | cons j rest ih =>
    rw [runQueue_cons]
    refine List.chain'_cons'.mpr ⟨?_, ih _ _⟩
    exact runQueue_head_time_ge hash rest _ (clock + j.duration)

/-- C8: the single worker of `new Queue(1, Infinity)` completes jobs in
exactly the order they were enqueued, whatever each job's duration: the
completion list has one entry per job, positionally the k-th completion
is the k-th enqueued job's response, computed against the store left
behind by jobs 0…k-1 (the next job starts only after the previous
reached its terminal state); the k-th completion time is the enqueue-side
prefix sum of durations, so completion times never decrease. -/
theorem queue_fifo (hash : String → String) (jobs : List QJob)
    (store : Store) (clock : Nat) :
    (runQueue hash jobs store clock).2.length = jobs.length ∧
    List.Chain' (fun p q : Outcome × Nat => p.2 ≤ q.2)
      (runQueue hash jobs store clock).2 ∧
    (∀ k, k < jobs.length →
      ((runQueue hash jobs store clock).2.getD k (.serverError "", 0)).2
        = clock + ((jobs.take (k + 1)).map QJob.duration).sum) ∧
    (∀ k, k < jobs.length →
      ((runQueue hash jobs store clock).2.getD k (.serverError "", 0)).1
        = (handleCapture hash (jobs.getD k qdefault).req
            (jobs.getD k qdefault).render (jobs.getD k qdefault).ts
            (runQueue hash (jobs.take k) store clock).1).outcome) := by
  refine ⟨runQueue_length hash jobs store clock,
          runQueue_times_mono hash jobs store clock, ?_, ?_⟩
  · intro k hk
    induction jobs generalizing k store clock with
    | nil => cases hk
    | cons j rest ih =>
      rw [runQueue_cons]
      cases k with
      | zero => simp
      | succ k' =>
        simp only [List.getD_cons_succ, List.take_succ_cons, List.map_cons,
          List.sum_cons]
        rw [ih _ _ k' (by simpa using hk)]
        omega
  · intro k hk
    induction jobs generalizing k store clock with
    | nil => cases hk
    | cons j rest ih =>
      rw [runQueue_cons]
      cases k with
      | zero => rfl
      | succ k' =>
        simp only [List.getD_cons_succ, List.take_succ_cons]
        rw [ih _ _ k' (by simpa using hk), runQueue_cons]

/-- Witness for C8: three jobs A, B, C with durations 7, 1 and 4; the
completion list pairs the jobs' outcomes with times 7, 8, 12 in enqueue
order. -/
theorem queue_fifo_witness :
    (runQueue testHash jobs3 Store.empty 0).2.length = jobs3.length ∧
    List.Chain' (fun p q : Outcome × Nat => p.2 ≤ q.2)
      (runQueue testHash jobs3 Store.empty 0).2 ∧
    (2 < jobs3.length) ∧
    ((runQueue testHash jobs3 Store.empty 0).2.getD 2 (.serverError "", 0)).2
      = 0 + ((jobs3.take 3).map QJob.duration).sum ∧
    ((runQueue testHash jobs3 Store.empty 0).2.getD 2 (.serverError "", 0)).1
      = (handleCapture testHash (jobs3.getD 2 qdefault).req
          (jobs3.getD 2 qdefault).render (jobs3.getD 2 qdefault).ts
          (runQueue testHash (jobs3.take 2) Store.empty 0).1).outcome :=
  ⟨(queue_fifo testHash jobs3 Store.empty 0).1,
   (queue_fifo testHash jobs3 Store.empty 0).2.1,
   by decide,
   (queue_fifo testHash jobs3 Store.empty 0).2.2.1 2 (by decide),
   (queue_fifo testHash jobs3 Store.empty 0).2.2.2 2 (by decide)⟩
